import Mathlib

/-!
# Movies REST API (`src/app.js`)

A shallow embedding of the Express route handlers of `src/app.js` and theorems
about them.

* The module-level array `movies` is the state: every handler takes the store
  before the request and returns the response together with the store after it.
* A response records the status code, the headers that the handler sets with
  `res.header(...)` (in call order) and the body.
* Values of JavaScript that may be `undefined` (`req.header('origin')`,
  `req.query.genre`) are `Option String`; truthiness follows JavaScript: a string
  is falsy exactly when it is empty.
* The collaborators that the handlers call but that are not part of `app.js`
  (the two schema validators, `JSON.parse`, `String.prototype.toLowerCase`) are
  the fields of `Env`; `crypto.randomUUID()` is the argument `uuid` of `postMovie`.
-/

namespace MoviesApi

/-! ## Data model -/

/-- A stored movie record. The handlers dereference only `id` and `genre`; the
other properties are copied around, and a record may lack them. -/
structure Movie where
  id : String
  title : Option String
  year : Option Int
  director : Option String
  duration : Option Int
  rate : Option ℚ
  poster : Option String
  genre : List String
  deriving DecidableEq, Repr

/-- Modelled from the spec: the value `result.data` of a successful
`validateMovie` call (module `./schemas/movies`, not among the sources). It holds
exactly the schema's fields: title, year, director, duration, rate (defaulted by
the validator when the body omits it), poster and genre; `id` is not one of them. -/
structure MovieData where
  title : String
  year : Int
  director : String
  duration : Int
  rate : ℚ
  poster : String
  genre : List String
  deriving DecidableEq, Repr

/-- Modelled from the spec: the value `result.data` of a successful
`validatePartialMovie` call (module `./schemas/movies`, not among the sources):
every field of the schema is optional, `none` standing for a key the value does
not have. -/
structure PartialMovie where
  title : Option String := none
  year : Option Int := none
  director : Option String := none
  duration : Option Int := none
  rate : Option ℚ := none
  poster : Option String := none
  genre : Option (List String) := none
  deriving DecidableEq, Repr

/-- The in-memory array `movies`. -/
abbrev Store := List Movie

/-- The collaborators of the handlers: `β` is the type of request bodies and `ε`
the type of the parsed validation error payload. A validator answers
`Except.error msg` for `result.error` with `result.error.message = msg`, and
`Except.ok d` for `result.data = d`. -/
structure Env (β ε : Type) where
  validateMovie : β → Except String MovieData
  validatePartialMovie : β → Except String PartialMovie
  jsonParse : String → ε
  toLowerCase : String → String

/-- What a handler reads from the request: `req.header('origin')`,
`req.query.genre`, `req.params.id` (the empty string on routes without `:id`)
and `req.body`. -/
structure Request (β : Type) where
  origin : Option String := none
  genre : Option String := none
  id : String := ""
  body : β

/-- The payload handed to `res.json` or `res.sendStatus`. -/
inductive Body (ε : Type) where
  | movies (ms : List Movie)
  | movie (m : Movie)
  | message (msg : String)
  | error (e : ε)
  | text (t : String)
  deriving DecidableEq, Repr

/-- The response written by a handler. -/
structure Response (ε : Type) where
  status : Nat
  headers : List (String × String)
  body : Body ε
  deriving DecidableEq, Repr

/-! ## JavaScript primitives used by the handlers -/

/-- JavaScript truthiness of a value that is a string or `undefined`. -/
def truthy : Option String → Bool
  | none => false
  | some s => s != ""

/-- `String(val)` for a value that is a string or `undefined`: Express's
`res.header(field, val)` stores `String(val)` as the header value. -/
def jsString : Option String → String
  | none => "undefined"
  | some s => s

/-- `Array.prototype.findIndex`: the first position whose element satisfies `p`;
`none` stands for `-1`. -/
def findIndex {α : Type} (p : α → Bool) : (xs : List α) → Option (Fin xs.length)
  | [] => none
  | x :: xs => if p x then some ⟨0, Nat.succ_pos _⟩ else (findIndex p xs).map Fin.succ

/-! ## The CORS gate -/

/-- The allow-list `ACCEPTTED_ORIGINS`. -/
def ACCEPTTED_ORIGINS : List String :=
  ["https://localhost:3000", "https://localhost:3001", "http://localhost:8080"]

/-- `ACCEPTTED_ORIGINS.includes(origin)`. -/
def includesOrigin : Option String → Bool
  | none => false
  | some o => ACCEPTTED_ORIGINS.contains o

/-- The condition `ACCEPTTED_ORIGINS.includes(origin) || !origin`. -/
def gateOpen (origin : Option String) : Bool :=
  includesOrigin origin || !truthy origin

/-- Name of the header set by the gate. -/
def allowOrigin : String := "Access-Control-Allow-Origin"

/-- Name of the second header set by the preflight route. -/
def allowMethods : String := "Access-Control-Allow-Methods"

/-- The gate of `GET /movies` and `DELETE /movies/:id`:
`if (...) res.header('Access-Control-Allow-Origin', origin)`. -/
def corsHeaders (origin : Option String) : List (String × String) :=
  if gateOpen origin then [(allowOrigin, jsString origin)] else []

/-- The gate of `OPTIONS /movies/:id`, which sets the allowed methods as well. -/
def preflightHeaders (origin : Option String) : List (String × String) :=
  if gateOpen origin then
    [(allowOrigin, jsString origin), (allowMethods, "GET, POST, PATCH, DELETE")]
  else []

/-! ## Route handlers -/

section Handlers

variable {β ε : Type}

/-- The predicate `movie => movie.genre.some(g => g.toLowerCase() === genre.toLowerCase())`. -/
def genreMatches (E : Env β ε) (genre : String) (movie : Movie) : Bool :=
  movie.genre.any (fun g => E.toLowerCase g == E.toLowerCase genre)

/-- The handler `app.get('/movies', ...)`. -/
def getMovies (E : Env β ε) (movies : Store) (req : Request β) : Response ε × Store :=
  let headers := corsHeaders req.origin
  match req.genre with
  | some genre =>
    if truthy (some genre) then
      let filteredMovies := movies.filter (genreMatches E genre)
      (⟨200, headers, .movies filteredMovies⟩, movies)
    else (⟨200, headers, .movies movies⟩, movies)
  | none => (⟨200, headers, .movies movies⟩, movies)

/-- The handler `app.get('/movies/:id', ...)`; `movies.find` is `List.find?`. -/
def getMovieById (_E : Env β ε) (movies : Store) (req : Request β) : Response ε × Store :=
  match movies.find? (fun movie => movie.id == req.id) with
  | some movie => (⟨200, [], .movie movie⟩, movies)
  | none => (⟨404, [], .message "Movie not found"⟩, movies)

/-- The object `{ id: crypto.randomUUID(), ...result.data }`. -/
def newMovie (uuid : String) (data : MovieData) : Movie :=
  { id := uuid
    title := some data.title
    year := some data.year
    director := some data.director
    duration := some data.duration
    rate := some data.rate
    poster := some data.poster
    genre := data.genre }

/-- The handler `app.post('/movies', ...)`; `uuid` is the value returned by
`crypto.randomUUID()`. -/
def postMovie (E : Env β ε) (uuid : String) (movies : Store) (req : Request β) :
    Response ε × Store :=
  match E.validateMovie req.body with
  | .error msg => (⟨400, [], .error (E.jsonParse msg)⟩, movies)
  | .ok data =>
    let created := newMovie uuid data
    (⟨201, [], .movie created⟩, movies ++ [created])

/-- The handler `app.delete('/movies/:id', ...)`; `movies.splice(movieIndex, 1)`
is `List.eraseIdx`. -/
def deleteMovie (_E : Env β ε) (movies : Store) (req : Request β) : Response ε × Store :=
  let headers := corsHeaders req.origin
  match findIndex (fun movie => movie.id == req.id) movies with
  | none => (⟨404, headers, .message "Movie not found"⟩, movies)
  | some movieIndex =>
    (⟨200, headers, .message "Movie deleted"⟩, movies.eraseIdx movieIndex.val)

/-- The object `{ ...movie, ...data }`: a key of `data` overrides the key of
`movie`, every other key of `movie` is kept. -/
def mergeMovie (movie : Movie) (data : PartialMovie) : Movie :=
  { id := movie.id
    title := match data.title with | some v => some v | none => movie.title
    year := match data.year with | some v => some v | none => movie.year
    director := match data.director with | some v => some v | none => movie.director
    duration := match data.duration with | some v => some v | none => movie.duration
    rate := match data.rate with | some v => some v | none => movie.rate
    poster := match data.poster with | some v => some v | none => movie.poster
    genre := match data.genre with | some v => v | none => movie.genre }

/-- The handler `app.patch('/movies/:id', ...)`; `movies[movieIndex] = updateMovie`
is `List.set`. -/
def patchMovie (E : Env β ε) (movies : Store) (req : Request β) : Response ε × Store :=
  match E.validatePartialMovie req.body with
  | .error msg => (⟨400, [], .error (E.jsonParse msg)⟩, movies)
  | .ok data =>
    match findIndex (fun movie => movie.id == req.id) movies with
    | none => (⟨404, [], .message "Movie not found"⟩, movies)
    | some movieIndex =>
      let updateMovie := mergeMovie (movies.get movieIndex) data
      (⟨200, [], .movie updateMovie⟩, movies.set movieIndex.val updateMovie)

/-- The handler `app.options('/movies/:id', ...)`; `res.sendStatus(200)` sends
the status text as the body. -/
def optionsMovie (_E : Env β ε) (movies : Store) (req : Request β) : Response ε × Store :=
  (⟨200, preflightHeaders req.origin, .text "OK"⟩, movies)

end Handlers

/-- The value of the header `name` on a response: the last `res.header` call for
that name wins, `none` when the handler never set it. -/
def headerValue {ε : Type} (r : Response ε) (name : String) : Option String :=
  (r.headers.reverse.find? (fun kv => kv.1 == name)).map Prod.snd

/-! ## The genre filter as the specification words it -/

/-- The specification's selection rule for `GET /movies?genre=X`: the record has
at least one `genre` entry that equals `X` once both are lower-cased (equality of
whole entries). -/
def hasGenre {β ε : Type} (E : Env β ε) (X : String) (movie : Movie) : Prop :=
  ∃ g ∈ movie.genre, E.toLowerCase g = E.toLowerCase X

instance hasGenreDecidable {β ε : Type} (E : Env β ε) (X : String) (movie : Movie) :
    Decidable (hasGenre E X movie) :=
  List.decidableBEx (fun g => E.toLowerCase g = E.toLowerCase X) movie.genre

/-! ## A concrete instance, used to evaluate the handlers -/

/-- ASCII lower-casing, which is what `toLowerCase` does on ASCII strings. -/
def asciiLower (s : String) : String := String.mk (s.data.map Char.toLower)

/-- A sample validator pair over bodies that are objects with optional schema
fields: full validation demands every field except `rate` (defaulted to 5),
partial validation accepts every such body. -/
def sampleEnv : Env PartialMovie String where
  validateMovie b :=
    match b.title, b.year, b.director, b.duration, b.poster, b.genre with
    | some t, some y, some d, some n, some p, some g =>
      .ok ⟨t, y, d, n, b.rate.getD 5, p, g⟩
    | _, _, _, _, _, _ => .error "[\"Required\"]"
  validatePartialMovie b := .ok b
  jsonParse msg := msg
  toLowerCase := asciiLower

/-- A stored record used in the evaluations. -/
def matrix : Movie :=
  ⟨"a1", some "The Matrix", some 2000, some "Lana Wachowski", some 136, some 9,
    some "https://img.test/matrix.jpg", ["Action", "Sci-Fi"]⟩

/-- A second stored record. -/
def heat : Movie :=
  ⟨"b2", some "Heat", some 1995, some "Michael Mann", some 170, some 8,
    some "https://img.test/heat.jpg", ["Crime", "Drama"]⟩

/-- A store with two records. -/
def sampleStore : Store := [matrix, heat]

/-- A body that passes full validation in `sampleEnv`. -/
def fullBody : PartialMovie :=
  ⟨some "Alien", some 1979, some "Ridley Scott", some 117, none,
    some "https://img.test/alien.jpg", some ["Horror", "Sci-Fi"]⟩

/-- The seed record of the specification's scenario:
`{ id: 'a1', title: 'X', year: 2000, genre: ['Drama'] }`. -/
def seedMovie : Movie :=
  ⟨"a1", some "X", some 2000, none, none, none, none, ["Drama"]⟩

/-- A record that shares its id with `heat`. -/
def heatCopy : Movie :=
  ⟨"b2", some "Heat (remake)", some 2030, none, none, none, none, ["Crime"]⟩

/-- A store in which two records share the id `b2`. -/
def twinStore : Store := [matrix, heat, heatCopy]

/-- A validator pair whose partial validation can fail: it rejects an empty
`title` (the schema wants a non-empty text) and accepts every other body. -/
def strictEnv : Env PartialMovie String where
  validateMovie := sampleEnv.validateMovie
  validatePartialMovie b :=
    if b.title = some "" then .error "[\"title: must not be empty\"]" else .ok b
  jsonParse msg := msg
  toLowerCase := asciiLower

/-- What a request leaves behind apart from the response headers: the status
code, the body and the store. -/
def outcome {ε : Type} (r : Response ε × Store) : Nat × Body ε × Store :=
  (r.1.status, r.1.body, r.2)

/-! ## Lemmas on the array primitives -/

theorem findIndex_eq_none {α : Type} (p : α → Bool) (xs : List α) :
    findIndex p xs = none ↔ ∀ x ∈ xs, p x = false := by
  induction xs with
  | nil => simp [findIndex]
  | cons x xs ih =>
    by_cases hp : p x = true
    · simp [findIndex, hp]
    · simp [findIndex, hp, ih]

theorem eraseIdx_length_append {α : Type} (l1 : List α) (m : α) (l2 : List α) :
    (l1 ++ m :: l2).eraseIdx l1.length = l1 ++ l2 := by
  induction l1 with
  | nil => rfl
  | cons x l1 ih => simp [List.eraseIdx, ih]

theorem set_length_append {α : Type} (l1 : List α) (m v : α) (l2 : List α) :
    (l1 ++ m :: l2).set l1.length v = l1 ++ v :: l2 := by
  induction l1 with
  | nil => rfl
  | cons x l1 ih => simp [List.set, ih]

/-- A successful `findIndex` splits the array at the first element satisfying
`p`: nothing before it satisfies `p`. -/
theorem findIndex_split {α : Type} (p : α → Bool) (xs : List α) (i : Fin xs.length)
    (h : findIndex p xs = some i) :
    ∃ l1 m l2, xs = l1 ++ m :: l2 ∧ l1.length = i.val ∧ xs.get i = m ∧ p m = true ∧
      ∀ x ∈ l1, p x = false := by
  induction xs with
  | nil => exact i.elim0
  | cons x xs ih =>
    by_cases hp : p x = true
    · simp only [findIndex, hp, if_true, Option.some.injEq] at h
      subst h
      exact ⟨[], x, xs, rfl, rfl, rfl, hp, by simp⟩
    · simp only [findIndex, hp, Bool.false_eq_true, if_false, Option.map_eq_some'] at h
      obtain ⟨k, hk, rfl⟩ := h
      obtain ⟨l1, m, l2, hxs, hlen, hget, hm, hl1⟩ := ih k hk
      refine ⟨x :: l1, m, l2, by rw [hxs]; rfl, by simp [hlen], by simpa using hget, hm, ?_⟩
      intro y hy
      rcases List.mem_cons.mp hy with rfl | hy
      · simpa using hp
      · exact hl1 y hy

/-- When some element satisfies `p`, `findIndex` succeeds. -/
theorem findIndex_isSome {α : Type} (p : α → Bool) (xs : List α)
    (h : ∃ x ∈ xs, p x = true) : ∃ i, findIndex p xs = some i := by
  cases hfi : findIndex p xs with
  | some i => exact ⟨i, rfl⟩
  | none =>
    obtain ⟨x, hx, hpx⟩ := h
    have := (findIndex_eq_none p xs).mp hfi x hx
    simp [this] at hpx

/-- The split of a list at its first element satisfying `p` is unique. -/
theorem first_split_unique {α : Type} (p : α → Bool) (l1 k1 : List α) (m n : α)
    (l2 k2 : List α) (h : l1 ++ m :: l2 = k1 ++ n :: k2)
    (hm : p m = true) (hn : p n = true)
    (hl1 : ∀ x ∈ l1, p x = false) (hk1 : ∀ x ∈ k1, p x = false) :
    l1 = k1 ∧ m = n ∧ l2 = k2 := by
  induction l1 generalizing k1 with
  | nil =>
    cases k1 with
    | nil =>
      simp only [List.nil_append, List.cons.injEq] at h
      exact ⟨rfl, h.1, h.2⟩
    | cons y k1 =>
      simp only [List.nil_append, List.cons_append, List.cons.injEq] at h
      have hy := hk1 y (by simp)
      rw [← h.1, hm] at hy
      exact absurd hy (by decide)
  | cons x l1 ih =>
    cases k1 with
    | nil =>
      simp only [List.nil_append, List.cons_append, List.cons.injEq] at h
      have hx := hl1 x (by simp)
      rw [h.1, hn] at hx
      exact absurd hx (by decide)
    | cons y k1 =>
      simp only [List.cons_append, List.cons.injEq] at h
      obtain ⟨h1, h2, h3⟩ := ih k1 h.2 (fun z hz => hl1 z (List.mem_cons_of_mem _ hz))
        (fun z hz => hk1 z (List.mem_cons_of_mem _ hz))
      exact ⟨by rw [h.1, h1], h2, h3⟩

/-! ## Lemmas on the handlers -/

section HandlerLemmas

variable {β ε : Type}

/-- The position found by `findIndex` on the handlers' predicate splits the store:
the record there carries the requested id, no record before it does, erasing the
position drops exactly that record and assigning to it replaces exactly that
record. -/
theorem findIndex_id (movies : Store) (id : String) (i : Fin movies.length)
    (h : findIndex (fun movie => movie.id == id) movies = some i) :
    ∃ l1 m l2, movies = l1 ++ m :: l2 ∧ l1.length = i.val ∧ movies.get i = m ∧
      m.id = id ∧ (∀ x ∈ l1, x.id ≠ id) ∧ movies.eraseIdx i.val = l1 ++ l2 ∧
      ∀ v, movies.set i.val v = l1 ++ v :: l2 := by
  obtain ⟨l1, m, l2, hxs, hlen, hget, hm, hl1⟩ := findIndex_split _ movies i h
  refine ⟨l1, m, l2, hxs, hlen, hget, by simpa using hm, ?_, ?_, ?_⟩
  · intro x hx
    simpa using hl1 x hx
  · rw [← hlen]
    conv_lhs => rw [hxs]
    exact eraseIdx_length_append l1 m l2
  · intro v
    rw [← hlen]
    conv_lhs => rw [hxs]
    exact set_length_append l1 m v l2

/-- When a record with the requested id exists, `findIndex` finds a position. -/
theorem findIndex_of_mem (movies : Store) (id : String)
    (h : ∃ m ∈ movies, m.id = id) :
    ∃ i, findIndex (fun movie => movie.id == id) movies = some i := by
  apply findIndex_isSome
  obtain ⟨m, hm, hid⟩ := h
  exact ⟨m, hm, by simp [hid]⟩

/-- When no record has the requested id, `findIndex` answers `-1`. -/
theorem findIndex_of_not_mem (movies : Store) (id : String)
    (h : ∀ m ∈ movies, m.id ≠ id) :
    findIndex (fun movie => movie.id == id) movies = none := by
  rw [findIndex_eq_none]
  intro m hm
  simpa using h m hm

theorem postMovie_ok (E : Env β ε) (uuid : String) (movies : Store) (req : Request β)
    (data : MovieData) (h : E.validateMovie req.body = .ok data) :
    postMovie E uuid movies req =
      (⟨201, [], .movie (newMovie uuid data)⟩, movies ++ [newMovie uuid data]) := by
  simp [postMovie, h]

theorem postMovie_error (E : Env β ε) (uuid : String) (movies : Store) (req : Request β)
    (msg : String) (h : E.validateMovie req.body = .error msg) :
    postMovie E uuid movies req = (⟨400, [], .error (E.jsonParse msg)⟩, movies) := by
  simp [postMovie, h]

theorem patchMovie_error (E : Env β ε) (movies : Store) (req : Request β)
    (msg : String) (h : E.validatePartialMovie req.body = .error msg) :
    patchMovie E movies req = (⟨400, [], .error (E.jsonParse msg)⟩, movies) := by
  simp [patchMovie, h]

theorem patchMovie_missing (E : Env β ε) (movies : Store) (req : Request β)
    (data : PartialMovie) (h : E.validatePartialMovie req.body = .ok data)
    (hi : findIndex (fun movie => movie.id == req.id) movies = none) :
    patchMovie E movies req = (⟨404, [], .message "Movie not found"⟩, movies) := by
  simp [patchMovie, h, hi]

theorem patchMovie_ok (E : Env β ε) (movies : Store) (req : Request β)
    (data : PartialMovie) (i : Fin movies.length)
    (h : E.validatePartialMovie req.body = .ok data)
    (hi : findIndex (fun movie => movie.id == req.id) movies = some i) :
    patchMovie E movies req =
      (⟨200, [], .movie (mergeMovie (movies.get i) data)⟩,
        movies.set i.val (mergeMovie (movies.get i) data)) := by
  simp [patchMovie, h, hi]

theorem deleteMovie_missing (E : Env β ε) (movies : Store) (req : Request β)
    (hi : findIndex (fun movie => movie.id == req.id) movies = none) :
    deleteMovie E movies req =
      (⟨404, corsHeaders req.origin, .message "Movie not found"⟩, movies) := by
  simp [deleteMovie, hi]

theorem deleteMovie_ok (E : Env β ε) (movies : Store) (req : Request β)
    (i : Fin movies.length)
    (hi : findIndex (fun movie => movie.id == req.id) movies = some i) :
    deleteMovie E movies req =
      (⟨200, corsHeaders req.origin, .message "Movie deleted"⟩, movies.eraseIdx i.val) := by
  simp [deleteMovie, hi]

/-- `GET /movies` without a usable `genre` parameter sends the whole store. -/
theorem getMovies_unfiltered (E : Env β ε) (movies : Store) (req : Request β)
    (h : truthy req.genre = false) :
    getMovies E movies req = (⟨200, corsHeaders req.origin, .movies movies⟩, movies) := by
  unfold getMovies
  cases hg : req.genre with
  | none => rfl
  | some g => rw [hg] at h; simp [h]

/-- `GET /movies` with a non-empty `genre` parameter sends the filtered store. -/
theorem getMovies_filtered (E : Env β ε) (movies : Store) (req : Request β) (genre : String)
    (hg : req.genre = some genre) (hne : genre ≠ "") :
    getMovies E movies req =
      (⟨200, corsHeaders req.origin, .movies (movies.filter (genreMatches E genre))⟩, movies) := by
  unfold getMovies
  simp [hg, truthy, hne]

theorem getMovies_headers (E : Env β ε) (movies : Store) (req : Request β) :
    (getMovies E movies req).1.headers = corsHeaders req.origin := by
  unfold getMovies
  cases req.genre with
  | none => rfl
  | some g => by_cases hg : truthy (some g) = true <;> simp [hg]

theorem deleteMovie_headers (E : Env β ε) (movies : Store) (req : Request β) :
    (deleteMovie E movies req).1.headers = corsHeaders req.origin := by
  unfold deleteMovie
  cases findIndex (fun movie => movie.id == req.id) movies <;> rfl

/-- Apart from the headers, `GET /movies` does not depend on the origin. -/
theorem getMovies_origin (E : Env β ε) (movies : Store) (req : Request β)
    (o : Option String) :
    (getMovies E movies { req with origin := o }).1.status = (getMovies E movies req).1.status ∧
    (getMovies E movies { req with origin := o }).1.body = (getMovies E movies req).1.body ∧
    (getMovies E movies { req with origin := o }).2 = (getMovies E movies req).2 := by
  unfold getMovies
  cases req.genre with
  | none => exact ⟨rfl, rfl, rfl⟩
  | some g => by_cases hg : truthy (some g) = true <;> simp [hg]

/-- Apart from the headers, `DELETE /movies/:id` does not depend on the origin. -/
theorem deleteMovie_origin (E : Env β ε) (movies : Store) (req : Request β)
    (o : Option String) :
    (deleteMovie E movies { req with origin := o }).1.status =
      (deleteMovie E movies req).1.status ∧
    (deleteMovie E movies { req with origin := o }).1.body =
      (deleteMovie E movies req).1.body ∧
    (deleteMovie E movies { req with origin := o }).2 = (deleteMovie E movies req).2 := by
  unfold deleteMovie
  cases findIndex (fun movie => movie.id == req.id) movies <;> exact ⟨rfl, rfl, rfl⟩

/-- The gate for an origin of the allow-list sets the header to that origin. -/
theorem corsHeaders_allowed (o : String) (h : o ∈ ACCEPTTED_ORIGINS) :
    corsHeaders (some o) = [(allowOrigin, o)] := by
  simp [corsHeaders, gateOpen, includesOrigin, h, jsString]

theorem preflightHeaders_allowed (o : String) (h : o ∈ ACCEPTTED_ORIGINS) :
    preflightHeaders (some o) =
      [(allowOrigin, o), (allowMethods, "GET, POST, PATCH, DELETE")] := by
  simp [preflightHeaders, gateOpen, includesOrigin, h, jsString]

/-- The gate for a non-empty origin outside the allow-list sets nothing. -/
theorem corsHeaders_foreign (o : String) (hne : o ≠ "") (h : o ∉ ACCEPTTED_ORIGINS) :
    corsHeaders (some o) = [] := by
  simp [corsHeaders, gateOpen, includesOrigin, h, truthy, hne]

/-- On a store split at the first record with the requested id, `findIndex`
answers the position of that record. -/
theorem findIndex_first (l1 : List Movie) (m : Movie) (l2 : List Movie) (id : String)
    (hm : m.id = id) (hl1 : ∀ x ∈ l1, x.id ≠ id) :
    ∃ i : Fin (l1 ++ m :: l2).length,
      findIndex (fun movie => movie.id == id) (l1 ++ m :: l2) = some i ∧
      i.val = l1.length ∧ (l1 ++ m :: l2).get i = m := by
  have hmem : ∃ x ∈ l1 ++ m :: l2, x.id = id := ⟨m, by simp, hm⟩
  obtain ⟨i, hi⟩ := findIndex_of_mem (l1 ++ m :: l2) id hmem
  obtain ⟨k1, n, k2, hxs, hlen, hget, hn, hk1, _, _⟩ := findIndex_id (l1 ++ m :: l2) id i hi
  obtain ⟨hk, hmn, _⟩ := first_split_unique (fun movie => movie.id == id) l1 k1 m n l2 k2 hxs
    (by simp [hm]) (by simp [hn]) (fun x hx => by simpa using hl1 x hx)
    (fun x hx => by simpa using hk1 x hx)
  subst hk
  exact ⟨i, hi, hlen.symm, by rw [hget, hmn]⟩

/-- A store that holds the requested id splits at its first record with that id. -/
theorem exists_first (movies : Store) (id : String) (h : ∃ m ∈ movies, m.id = id) :
    ∃ l1 m l2, movies = l1 ++ m :: l2 ∧ m.id = id ∧ ∀ x ∈ l1, x.id ≠ id := by
  obtain ⟨i, hi⟩ := findIndex_of_mem movies id h
  obtain ⟨l1, m, l2, hxs, _, _, hm, hl1, _, _⟩ := findIndex_id movies id i hi
  exact ⟨l1, m, l2, hxs, hm, hl1⟩

/-- In a store with pairwise distinct ids no record after a given one repeats
its id. -/
theorem nodup_after (l1 : List Movie) (m : Movie) (l2 : List Movie)
    (h : ((l1 ++ m :: l2).map Movie.id).Nodup) : ∀ x ∈ l2, x.id ≠ m.id := by
  simp only [List.map_append, List.map_cons] at h
  have hcons := (List.nodup_append.mp h).2.1
  have hnot := (List.nodup_cons.mp hcons).1
  intro x hx hid
  exact hnot (List.mem_map.mpr ⟨x, hx, hid⟩)

theorem getMovieById_split (E : Env β ε) (l1 : List Movie) (m : Movie) (l2 : List Movie)
    (req : Request β) (hm : m.id = req.id) (hl1 : ∀ x ∈ l1, x.id ≠ req.id) :
    getMovieById E (l1 ++ m :: l2) req = (⟨200, [], .movie m⟩, l1 ++ m :: l2) := by
  have hf : (l1 ++ m :: l2).find? (fun movie => movie.id == req.id) = some m := by
    rw [List.find?_eq_some]
    exact ⟨by simp [hm], l1, l2, rfl, fun a ha => by simpa using hl1 a ha⟩
  simp only [getMovieById, hf]

theorem getMovieById_missing (E : Env β ε) (movies : Store) (req : Request β)
    (h : ∀ m ∈ movies, m.id ≠ req.id) :
    getMovieById E movies req = (⟨404, [], .message "Movie not found"⟩, movies) := by
  have hf : movies.find? (fun movie => movie.id == req.id) = none := by
    rw [List.find?_eq_none]
    intro x hx
    simpa using h x hx
  simp only [getMovieById, hf]

theorem deleteMovie_split (E : Env β ε) (l1 : List Movie) (m : Movie) (l2 : List Movie)
    (req : Request β) (hm : m.id = req.id) (hl1 : ∀ x ∈ l1, x.id ≠ req.id) :
    deleteMovie E (l1 ++ m :: l2) req =
      (⟨200, corsHeaders req.origin, .message "Movie deleted"⟩, l1 ++ l2) := by
  obtain ⟨i, hi, hlen, _⟩ := findIndex_first l1 m l2 req.id hm hl1
  rw [deleteMovie_ok E _ req i hi, hlen, eraseIdx_length_append]

theorem patchMovie_split (E : Env β ε) (l1 : List Movie) (m : Movie) (l2 : List Movie)
    (req : Request β) (data : PartialMovie)
    (hv : E.validatePartialMovie req.body = .ok data)
    (hm : m.id = req.id) (hl1 : ∀ x ∈ l1, x.id ≠ req.id) :
    patchMovie E (l1 ++ m :: l2) req =
      (⟨200, [], .movie (mergeMovie m data)⟩, l1 ++ mergeMovie m data :: l2) := by
  obtain ⟨i, hi, hlen, hget⟩ := findIndex_first l1 m l2 req.id hm hl1
  rw [patchMovie_ok E _ req data i hv hi, hget, hlen, set_length_append]

/-- Merging the same validated value a second time changes nothing. -/
theorem mergeMovie_idem (m : Movie) (data : PartialMovie) :
    mergeMovie (mergeMovie m data) data = mergeMovie m data := by
  cases data with
  | mk title year director duration rate poster genre =>
    cases title <;> cases year <;> cases director <;> cases duration <;> cases rate <;>
      cases poster <;> cases genre <;> rfl

/-- Merging the value without fields gives the record back. -/
theorem mergeMovie_empty (m : Movie) : mergeMovie m {} = m := rfl

theorem getMovies_store (E : Env β ε) (movies : Store) (req : Request β) :
    (getMovies E movies req).2 = movies := by
  unfold getMovies
  cases req.genre with
  | none => rfl
  | some g => by_cases hg : truthy (some g) = true <;> simp [hg]

/-- The handlers of `POST /movies`, `PATCH /movies/:id` and `GET /movies/:id`
never call `res.header`. -/
theorem ungated_headers (E : Env β ε) (uuid : String) (movies : Store) (req : Request β) :
    (postMovie E uuid movies req).1.headers = [] ∧
    (patchMovie E movies req).1.headers = [] ∧
    (getMovieById E movies req).1.headers = [] := by
  refine ⟨?_, ?_, ?_⟩
  · unfold postMovie
    cases E.validateMovie req.body <;> rfl
  · unfold patchMovie
    cases E.validatePartialMovie req.body with
    | error msg => rfl
    | ok data => cases findIndex (fun movie => movie.id == req.id) movies <;> rfl
  · unfold getMovieById
    cases movies.find? (fun movie => movie.id == req.id) <;> rfl

end HandlerLemmas

/-! ## Theorems -/

section Claims

variable {β ε : Type}

/-- C1 as stated fails when the generated identifier is already in use: the
handler makes no collision check, so with the generated value `a1` on a store
that holds a record `a1` it answers 201 with a record whose `id` equals the `id`
of a stored record, and appends it. -/
theorem post_colliding_id :
    sampleEnv.validateMovie fullBody =
      .ok ⟨"Alien", 1979, "Ridley Scott", 117, 5, "https://img.test/alien.jpg",
        ["Horror", "Sci-Fi"]⟩ ∧
    (postMovie sampleEnv "a1" sampleStore ⟨none, none, "", fullBody⟩).1.status = 201 ∧
    (postMovie sampleEnv "a1" sampleStore ⟨none, none, "", fullBody⟩).1.body =
      .movie ⟨"a1", some "Alien", some 1979, some "Ridley Scott", some 117, some 5,
        some "https://img.test/alien.jpg", ["Horror", "Sci-Fi"]⟩ ∧
    matrix ∈ sampleStore ∧ matrix.id = "a1" ∧
    (postMovie sampleEnv "a1" sampleStore ⟨none, none, "", fullBody⟩).2.map Movie.id =
      ["a1", "b2", "a1"] :=
  ⟨rfl, by decide, by decide, by decide, rfl, by decide⟩

/-- C1, amended: for every store and every request body that passes full
validation, `POST /movies` answers 201 with the created record, whose `id` is the
identifier generated for this request; the handler makes no collision check, so
that `id` differs from the `id` of every record already stored exactly when the
generated identifier is not in use yet. The store afterwards is the old store
with that record appended at the end, and a following `GET /movies` (no genre
filter) lists it. -/
theorem post_valid_appends (E : Env β ε) (uuid : String) (movies : Store) (req : Request β)
    (data : MovieData) (hvalid : E.validateMovie req.body = .ok data) :
    ∃ created : Movie,
      (postMovie E uuid movies req).1.status = 201 ∧
      (postMovie E uuid movies req).1.body = .movie created ∧
      created.id = uuid ∧
      created = newMovie uuid data ∧
      ((∀ m ∈ movies, m.id ≠ created.id) ↔ uuid ∉ movies.map Movie.id) ∧
      (postMovie E uuid movies req).2 = movies ++ [created] ∧
      ∀ req2 : Request β, truthy req2.genre = false →
        (getMovies E (postMovie E uuid movies req).2 req2).1.status = 200 ∧
        (getMovies E (postMovie E uuid movies req).2 req2).1.body =
          .movies (movies ++ [created]) ∧
        created ∈ movies ++ [created] := by
  refine ⟨newMovie uuid data, ?_⟩
  rw [postMovie_ok E uuid movies req data hvalid]
  refine ⟨rfl, rfl, rfl, rfl, ?_, rfl, ?_⟩
  · show (∀ m ∈ movies, m.id ≠ uuid) ↔ uuid ∉ movies.map Movie.id
    constructor
    · intro h hin
      obtain ⟨m, hm, hid⟩ := List.mem_map.mp hin
      exact h m hm hid
    · intro h m hm hid
      exact h (List.mem_map.mpr ⟨m, hm, hid⟩)
  · intro req2 h2
    rw [getMovies_unfiltered E _ req2 h2]
    exact ⟨rfl, rfl, by simp⟩

theorem post_valid_appends_witness :
    sampleEnv.validateMovie fullBody =
      .ok ⟨"Alien", 1979, "Ridley Scott", 117, 5, "https://img.test/alien.jpg",
        ["Horror", "Sci-Fi"]⟩ ∧
    (postMovie sampleEnv "c3" sampleStore ⟨none, none, "", fullBody⟩).2 =
      [matrix, heat, ⟨"c3", some "Alien", some 1979, some "Ridley Scott", some 117, some 5,
        some "https://img.test/alien.jpg", ["Horror", "Sci-Fi"]⟩] ∧
    ∃ created : Movie,
      (postMovie sampleEnv "c3" sampleStore ⟨none, none, "", fullBody⟩).1.status = 201 ∧
      (postMovie sampleEnv "c3" sampleStore ⟨none, none, "", fullBody⟩).1.body =
        .movie created ∧
      created.id = "c3" :=
  ⟨rfl, by decide,
    match post_valid_appends sampleEnv "c3" sampleStore ⟨none, none, "", fullBody⟩
      ⟨"Alien", 1979, "Ridley Scott", 117, 5, "https://img.test/alien.jpg", ["Horror", "Sci-Fi"]⟩
      rfl with
    | ⟨created, h⟩ => ⟨created, h.1, h.2.1, h.2.2.1⟩⟩

/-- C2: a handler that answers 400 or 404 leaves the store as it was, for
`POST /movies`, `PATCH /movies/:id`, `DELETE /movies/:id` and `GET /movies/:id`;
in particular a `POST` whose body fails full validation answers 400 and the store
(hence its length) is unchanged. -/
theorem failures_leave_store (E : Env β ε) (uuid : String) (movies : Store)
    (req : Request β) :
    (((postMovie E uuid movies req).1.status = 400 ∨
        (postMovie E uuid movies req).1.status = 404) →
      (postMovie E uuid movies req).2 = movies) ∧
    (((patchMovie E movies req).1.status = 400 ∨ (patchMovie E movies req).1.status = 404) →
      (patchMovie E movies req).2 = movies) ∧
    (((deleteMovie E movies req).1.status = 400 ∨ (deleteMovie E movies req).1.status = 404) →
      (deleteMovie E movies req).2 = movies) ∧
    (((getMovieById E movies req).1.status = 400 ∨
        (getMovieById E movies req).1.status = 404) →
      (getMovieById E movies req).2 = movies) ∧
    (∀ msg, E.validateMovie req.body = .error msg →
      (postMovie E uuid movies req).1.status = 400 ∧
      (postMovie E uuid movies req).2 = movies ∧
      (postMovie E uuid movies req).2.length = movies.length) := by
  refine ⟨?_, ?_, ?_, ?_, ?_⟩
  · cases hv : E.validateMovie req.body with
    | error msg => rw [postMovie_error E uuid movies req msg hv]; intro _; rfl
    | ok data => rw [postMovie_ok E uuid movies req data hv]; simp
  · cases hv : E.validatePartialMovie req.body with
    | error msg => rw [patchMovie_error E movies req msg hv]; intro _; rfl
    | ok data =>
      cases hi : findIndex (fun movie => movie.id == req.id) movies with
      | none => rw [patchMovie_missing E movies req data hv hi]; intro _; rfl
      | some i => rw [patchMovie_ok E movies req data i hv hi]; simp
  · cases hi : findIndex (fun movie => movie.id == req.id) movies with
    | none => rw [deleteMovie_missing E movies req hi]; intro _; rfl
    | some i => rw [deleteMovie_ok E movies req i hi]; simp
  · unfold getMovieById
    cases movies.find? (fun movie => movie.id == req.id) <;> simp
  · intro msg hv
    rw [postMovie_error E uuid movies req msg hv]
    exact ⟨rfl, rfl, rfl⟩

theorem failures_leave_store_witness :
    (postMovie sampleEnv "c3" sampleStore ⟨none, none, "", ⟨none, some 1979, none, none, none,
      none, none⟩⟩).1.status = 400 ∧
    (postMovie sampleEnv "c3" sampleStore ⟨none, none, "", ⟨none, some 1979, none, none, none,
      none, none⟩⟩).2 = sampleStore ∧
    (deleteMovie sampleEnv sampleStore ⟨none, none, "zz", fullBody⟩).1.status = 404 ∧
    (deleteMovie sampleEnv sampleStore ⟨none, none, "zz", fullBody⟩).2 = sampleStore :=
  ⟨by decide,
    (failures_leave_store sampleEnv "c3" sampleStore
      ⟨none, none, "", ⟨none, some 1979, none, none, none, none, none⟩⟩).1
      (Or.inl (by decide)),
    by decide,
    (failures_leave_store sampleEnv "c3" sampleStore ⟨none, none, "zz", fullBody⟩).2.2.1
      (Or.inr (by decide))⟩

/-- C3: in a store whose ids are pairwise distinct, two consecutive
`DELETE /movies/:id` requests for an id that is present answer 200 with the
message 'Movie deleted' and then 404; the first shortens the store by exactly one
record, the second leaves it as it is. -/
theorem delete_twice (E : Env β ε) (movies : Store) (req : Request β)
    (hnodup : (movies.map Movie.id).Nodup) (hmem : ∃ m ∈ movies, m.id = req.id) :
    (deleteMovie E movies req).1.status = 200 ∧
    (deleteMovie E movies req).1.body = .message "Movie deleted" ∧
    (deleteMovie E (deleteMovie E movies req).2 req).1.status = 404 ∧
    (deleteMovie E movies req).2.length + 1 = movies.length ∧
    (deleteMovie E (deleteMovie E movies req).2 req).2.length =
      (deleteMovie E movies req).2.length := by
  obtain ⟨i, hi⟩ := findIndex_of_mem movies req.id hmem
  obtain ⟨l1, m, l2, hxs, _, _, hm, hl1, herase, _⟩ := findIndex_id movies req.id i hi
  have hl2 : ∀ x ∈ l2, x.id ≠ req.id := by
    rw [hxs] at hnodup
    simp only [List.map_append, List.map_cons] at hnodup
    have hcons := (List.nodup_append.mp hnodup).2.1
    have hnot := (List.nodup_cons.mp hcons).1
    intro x hx hid
    exact hnot (List.mem_map.mpr ⟨x, hx, by rw [hid, hm]⟩)
  have hgone : findIndex (fun movie => movie.id == req.id) (l1 ++ l2) = none := by
    apply findIndex_of_not_mem
    intro x hx
    rcases List.mem_append.mp hx with hx | hx
    · exact hl1 x hx
    · exact hl2 x hx
  rw [deleteMovie_ok E movies req i hi, herase]
  rw [deleteMovie_missing E (l1 ++ l2) req hgone]
  refine ⟨rfl, rfl, rfl, ?_, rfl⟩
  rw [hxs]
  simp
  omega

theorem delete_twice_witness :
    ((sampleStore.map Movie.id).Nodup ∧ ∃ m ∈ sampleStore, m.id = "a1") ∧
    (deleteMovie sampleEnv sampleStore ⟨none, none, "a1", fullBody⟩).1.status = 200 ∧
    (deleteMovie sampleEnv sampleStore ⟨none, none, "a1", fullBody⟩).2 = [heat] ∧
    (deleteMovie sampleEnv [heat] ⟨none, none, "a1", fullBody⟩).1.status = 404 :=
  ⟨⟨by decide, matrix, by decide, rfl⟩,
    (delete_twice sampleEnv sampleStore ⟨none, none, "a1", fullBody⟩ (by decide)
      ⟨matrix, by decide, rfl⟩).1,
    by decide, by decide⟩

/-- C4: for every store and every id of an existing record, `PATCH /movies/:id`
with a body whose validated value is `{ year: 1999 }` answers 200 with a record
whose `year` is 1999 and whose other fields (id, title, director, duration, rate,
poster, genre) are those of the record it replaces (the first one with that id);
afterwards the store holds the returned record at the same position and every
other position is unchanged. -/
theorem patch_year_only (E : Env β ε) (movies : Store) (req : Request β)
    (hbody : E.validatePartialMovie req.body = .ok { year := some 1999 })
    (hmem : ∃ m ∈ movies, m.id = req.id) :
    ∃ (i : Fin movies.length) (updated : Movie),
      (movies.get i).id = req.id ∧
      (∀ j : Fin movies.length, j.val < i.val → (movies.get j).id ≠ req.id) ∧
      (patchMovie E movies req).1.status = 200 ∧
      (patchMovie E movies req).1.body = .movie updated ∧
      updated.year = some 1999 ∧
      updated.id = (movies.get i).id ∧
      updated.title = (movies.get i).title ∧
      updated.director = (movies.get i).director ∧
      updated.duration = (movies.get i).duration ∧
      updated.rate = (movies.get i).rate ∧
      updated.poster = (movies.get i).poster ∧
      updated.genre = (movies.get i).genre ∧
      (patchMovie E movies req).2.length = movies.length ∧
      (patchMovie E movies req).2[i.val]? = some updated ∧
      ∀ j : Nat, j ≠ i.val → (patchMovie E movies req).2[j]? = movies[j]? := by
  obtain ⟨i, hi⟩ := findIndex_of_mem movies req.id hmem
  obtain ⟨l1, m, l2, hxs, hlen, hget, hm, hl1, _, _⟩ := findIndex_id movies req.id i hi
  refine ⟨i, mergeMovie (movies.get i) { year := some 1999 }, ?_, ?_, ?_⟩
  · rw [hget]; exact hm
  · intro j hj
    apply hl1
    have hj1 : j.val < l1.length := by omega
    have : movies.get j = l1.get ⟨j.val, hj1⟩ := by
      simp only [List.get_eq_getElem]
      simp only [hxs]
      exact List.getElem_append_left hj1
    rw [this]
    exact List.get_mem l1 j.val hj1
  · rw [patchMovie_ok E movies req _ i hbody hi]
    refine ⟨rfl, rfl, rfl, rfl, rfl, rfl, rfl, rfl, rfl, rfl, by simp, by simp, ?_⟩
    intro j hj
    simp [List.getElem?_set, Ne.symm hj]

theorem patch_year_only_witness :
    (sampleEnv.validatePartialMovie { year := some 1999 } = .ok { year := some 1999 } ∧
      ∃ m ∈ sampleStore, m.id = "b2") ∧
    (patchMovie sampleEnv sampleStore ⟨none, none, "b2", { year := some 1999 }⟩).1.body =
      .movie ⟨"b2", some "Heat", some 1999, some "Michael Mann", some 170, some 8,
        some "https://img.test/heat.jpg", ["Crime", "Drama"]⟩ ∧
    ∃ (i : Fin sampleStore.length) (updated : Movie),
      (patchMovie sampleEnv sampleStore ⟨none, none, "b2", { year := some 1999 }⟩).1.body =
        .movie updated ∧ updated.year = some 1999 ∧ updated.id = (sampleStore.get i).id :=
  ⟨⟨rfl, heat, by decide, rfl⟩, by decide,
    match patch_year_only sampleEnv sampleStore ⟨none, none, "b2", { year := some 1999 }⟩ rfl
      ⟨heat, by decide, rfl⟩ with
    | ⟨i, updated, h⟩ => ⟨i, updated, h.2.2.2.1, h.2.2.2.2.1, h.2.2.2.2.2.1⟩⟩

/-- C5: the partial update never overwrites `id`: for every store, every id of an
existing record and every body that passes partial validation, the record that
`PATCH /movies/:id` returns and stores in place of the old one has the `id` of
the record it replaces, which is the requested id. -/
theorem patch_keeps_id (E : Env β ε) (movies : Store) (req : Request β)
    (data : PartialMovie) (hvalid : E.validatePartialMovie req.body = .ok data)
    (hmem : ∃ m ∈ movies, m.id = req.id) :
    ∃ (i : Fin movies.length) (updated : Movie),
      (patchMovie E movies req).1.status = 200 ∧
      (patchMovie E movies req).1.body = .movie updated ∧
      (patchMovie E movies req).2[i.val]? = some updated ∧
      (patchMovie E movies req).2.length = movies.length ∧
      updated.id = (movies.get i).id ∧
      updated.id = req.id := by
  obtain ⟨i, hi⟩ := findIndex_of_mem movies req.id hmem
  obtain ⟨l1, m, l2, _, _, hget, hm, _, _, _⟩ := findIndex_id movies req.id i hi
  refine ⟨i, mergeMovie (movies.get i) data, ?_⟩
  rw [patchMovie_ok E movies req data i hvalid hi]
  refine ⟨rfl, rfl, by simp, by simp, rfl, ?_⟩
  show (movies.get i).id = req.id
  rw [hget]; exact hm

theorem patch_keeps_id_witness :
    (sampleEnv.validatePartialMovie ⟨some "Ronin", none, none, none, some 7, none, none⟩ =
        .ok ⟨some "Ronin", none, none, none, some 7, none, none⟩ ∧
      ∃ m ∈ sampleStore, m.id = "b2") ∧
    (patchMovie sampleEnv sampleStore
        ⟨none, none, "b2", ⟨some "Ronin", none, none, none, some 7, none, none⟩⟩).2 =
      [matrix, ⟨"b2", some "Ronin", some 1995, some "Michael Mann", some 170, some 7,
        some "https://img.test/heat.jpg", ["Crime", "Drama"]⟩] ∧
    ∃ (i : Fin sampleStore.length) (updated : Movie),
      (patchMovie sampleEnv sampleStore
        ⟨none, none, "b2", ⟨some "Ronin", none, none, none, some 7, none, none⟩⟩).1.body =
        .movie updated ∧ updated.id = (sampleStore.get i).id :=
  ⟨⟨rfl, heat, by decide, rfl⟩, by decide,
    match patch_keeps_id sampleEnv sampleStore
      ⟨none, none, "b2", ⟨some "Ronin", none, none, none, some 7, none, none⟩⟩ _ rfl
      ⟨heat, by decide, rfl⟩ with
    | ⟨i, updated, h⟩ => ⟨i, updated, h.2.1, h.2.2.2.2.1⟩⟩

/-- The code's predicate selects exactly the records of the specification's rule. -/
theorem genreMatches_iff (E : Env β ε) (X : String) (movie : Movie) :
    genreMatches E X movie = true ↔ hasGenre E X movie := by
  simp [genreMatches, hasGenre, List.any_eq_true]

/-- C6 as stated fails for the empty query value: `GET /movies?genre=` sends the
whole store, while no record of the store has an empty `genre` entry. -/
theorem genre_filter_empty_value :
    (getMovies sampleEnv sampleStore ⟨none, some "", "", fullBody⟩).1.body =
      .movies [matrix, heat] ∧
    sampleStore.filter (fun movie => decide (hasGenre sampleEnv "" movie)) = [] ∧
    (getMovies sampleEnv sampleStore ⟨none, some "", "", fullBody⟩).1.body ≠
      .movies (sampleStore.filter (fun movie => decide (hasGenre sampleEnv "" movie))) := by
  decide

/-- C6, amended: for every store and every non-empty genre value `X`,
`GET /movies?genre=X` answers 200 with, in store order, exactly the records that
have a `genre` entry equal to `X` after lower-casing both (whole entries); two
non-empty values with the same lower-casing give the same list; a request with
no genre value, or with the empty one, gets the whole store. The store is never
changed. -/
theorem genre_filter (E : Env β ε) (movies : Store) (req : Request β) :
    (∀ X, req.genre = some X → X ≠ "" →
      (getMovies E movies req).1.status = 200 ∧
      (getMovies E movies req).1.body =
        .movies (movies.filter (fun movie => decide (hasGenre E X movie)))) ∧
    (∀ X Y, X ≠ "" → Y ≠ "" → E.toLowerCase X = E.toLowerCase Y →
      (getMovies E movies { req with genre := some X }).1.body =
        (getMovies E movies { req with genre := some Y }).1.body) ∧
    ((req.genre = none ∨ req.genre = some "") →
      (getMovies E movies req).1.status = 200 ∧
      (getMovies E movies req).1.body = .movies movies) ∧
    (getMovies E movies req).2 = movies := by
  have hfilter : ∀ X, movies.filter (genreMatches E X) =
      movies.filter (fun movie => decide (hasGenre E X movie)) := by
    intro X
    apply List.filter_congr
    intro movie _
    by_cases h : hasGenre E X movie
    · simp [h, (genreMatches_iff E X movie).mpr h]
    · have hn : genreMatches E X movie = false := by
        cases hm : genreMatches E X movie with
        | false => rfl
        | true => exact absurd ((genreMatches_iff E X movie).mp hm) h
      simp [h, hn]
  refine ⟨?_, ?_, ?_, ?_⟩
  · intro X hX hne
    rw [getMovies_filtered E movies req X hX hne, hfilter X]
    exact ⟨rfl, rfl⟩
  · intro X Y hX hY hXY
    rw [getMovies_filtered E movies _ X rfl hX, getMovies_filtered E movies _ Y rfl hY]
    have hpred : genreMatches E X = genreMatches E Y := by
      funext movie
      simp only [genreMatches, hXY]
    show Body.movies (movies.filter (genreMatches E X)) =
      Body.movies (movies.filter (genreMatches E Y))
    rw [hpred]
  · intro h
    have ht : truthy req.genre = false := by
      rcases h with h | h <;> simp [h, truthy]
    rw [getMovies_unfiltered E movies req ht]
    exact ⟨rfl, rfl⟩
  · unfold getMovies
    cases req.genre with
    | none => rfl
    | some g => by_cases hg : truthy (some g) = true <;> simp [hg]

theorem genre_filter_witness :
    ((⟨none, some "DRAMA", "", fullBody⟩ : Request PartialMovie).genre = some "DRAMA" ∧
      "DRAMA" ≠ "" ∧ "drama" ≠ "" ∧
      sampleEnv.toLowerCase "DRAMA" = sampleEnv.toLowerCase "drama") ∧
    (getMovies sampleEnv sampleStore ⟨none, some "DRAMA", "", fullBody⟩).1.body =
      .movies [heat] ∧
    (getMovies sampleEnv sampleStore ⟨none, some "DRAMA", "", fullBody⟩).1.body =
      (getMovies sampleEnv sampleStore ⟨none, some "drama", "", fullBody⟩).1.body :=
  ⟨⟨rfl, by decide, by decide, by decide⟩,
    ((genre_filter sampleEnv sampleStore ⟨none, some "DRAMA", "", fullBody⟩).1 "DRAMA" rfl
      (by decide)).2.trans (by decide),
    (genre_filter sampleEnv sampleStore ⟨none, none, "", fullBody⟩).2.1 "DRAMA" "drama"
      (by decide) (by decide) (by decide)⟩

/-- C7: for every store and every id, `GET /movies/:id` answers 404 with the body
`{ message: 'Movie not found' }` if and only if no record of the store has that
id; otherwise it answers 200 with the first record whose `id` is the requested
one. The store is not changed. -/
theorem get_by_id (E : Env β ε) (movies : Store) (req : Request β) :
    (((getMovieById E movies req).1.status = 404 ∧
        (getMovieById E movies req).1.body = .message "Movie not found") ↔
      ∀ m ∈ movies, m.id ≠ req.id) ∧
    ((getMovieById E movies req).1.status = 404 ↔ ∀ m ∈ movies, m.id ≠ req.id) ∧
    ((∃ m ∈ movies, m.id = req.id) →
      ∃ l1 m l2, movies = l1 ++ m :: l2 ∧ m.id = req.id ∧ (∀ x ∈ l1, x.id ≠ req.id) ∧
        (getMovieById E movies req).1.status = 200 ∧
        (getMovieById E movies req).1.body = .movie m) ∧
    (getMovieById E movies req).2 = movies := by
  cases hf : movies.find? (fun movie => movie.id == req.id) with
  | none =>
    have hnone : ∀ m ∈ movies, m.id ≠ req.id := by
      intro m hm
      simpa using List.find?_eq_none.mp hf m hm
    have hr : getMovieById E movies req =
        (⟨404, [], .message "Movie not found"⟩, movies) := by
      simp only [getMovieById, hf]
    rw [hr]
    refine ⟨⟨fun _ => hnone, fun _ => ⟨rfl, rfl⟩⟩, ⟨fun _ => hnone, fun _ => rfl⟩, ?_, rfl⟩
    rintro ⟨m, hm, hid⟩
    exact absurd hid (hnone m hm)
  | some found =>
    obtain ⟨hp, l1, l2, hxs, hl1⟩ := List.find?_eq_some.mp hf
    have hid : found.id = req.id := by simpa using hp
    have hbefore : ∀ x ∈ l1, x.id ≠ req.id := by
      intro x hx
      simpa using hl1 x hx
    have hsome : ¬ ∀ m ∈ movies, m.id ≠ req.id := by
      intro hall
      exact hall found (by rw [hxs]; simp) hid
    have hr : getMovieById E movies req = (⟨200, [], .movie found⟩, movies) := by
      simp only [getMovieById, hf]
    rw [hr]
    refine ⟨⟨fun h => ?_, fun h => absurd h hsome⟩, ⟨fun h => ?_, fun h => absurd h hsome⟩,
      fun _ => ⟨l1, found, l2, hxs, hid, hbefore, rfl, rfl⟩, rfl⟩
    · have h404 : (200 : Nat) = 404 := h.1
      exact absurd h404 (by decide)
    · have h404 : (200 : Nat) = 404 := h
      exact absurd h404 (by decide)

theorem get_by_id_witness :
    (∃ m ∈ sampleStore, m.id = "b2") ∧
    (getMovieById sampleEnv sampleStore ⟨none, none, "b2", fullBody⟩).1.body = .movie heat ∧
    ((getMovieById sampleEnv sampleStore ⟨none, none, "zz", fullBody⟩).1.status = 404 ∧
      (getMovieById sampleEnv sampleStore ⟨none, none, "zz", fullBody⟩).1.body =
        .message "Movie not found") ∧
    ∃ l1 m l2, sampleStore = l1 ++ m :: l2 ∧ m.id = "b2" ∧
      (getMovieById sampleEnv sampleStore ⟨none, none, "b2", fullBody⟩).1.status = 200 :=
  ⟨⟨heat, by decide, rfl⟩, by decide,
    (get_by_id sampleEnv sampleStore ⟨none, none, "zz", fullBody⟩).1.mpr (by decide),
    match (get_by_id sampleEnv sampleStore ⟨none, none, "b2", fullBody⟩).2.2.1
      ⟨heat, by decide, rfl⟩ with
    | ⟨l1, m, l2, h⟩ => ⟨l1, m, l2, h.1, h.2.1, h.2.2.2.1⟩⟩

/-- C8 as stated fails for an `Origin` header that is present and empty: the
empty string is not in the allow-list, but it is falsy, so the gate of
`GET /movies` sets `Access-Control-Allow-Origin` (to the empty value). -/
theorem empty_origin_sets_header :
    (⟨some "", none, "", fullBody⟩ : Request PartialMovie).origin ≠ none ∧
    "" ∉ ACCEPTTED_ORIGINS ∧
    (getMovies sampleEnv sampleStore ⟨some "", none, "", fullBody⟩).1.status = 200 ∧
    (getMovies sampleEnv sampleStore ⟨some "", none, "", fullBody⟩).1.headers =
      [("Access-Control-Allow-Origin", "")] ∧
    headerValue (getMovies sampleEnv sampleStore ⟨some "", none, "", fullBody⟩).1
      allowOrigin ≠ none := by
  decide

/-- C8, amended: for every store and every `GET /movies` request without genre
filter whose `Origin` is present, not empty and not in the allow-list (such as
http://evil.test), the answer is 200 with the full list and without an
`Access-Control-Allow-Origin` header; the store is not changed. -/
theorem foreign_origin_no_header (E : Env β ε) (movies : Store) (req : Request β)
    (o : String) (ho : req.origin = some o) (hne : o ≠ "") (hnot : o ∉ ACCEPTTED_ORIGINS)
    (hg : truthy req.genre = false) :
    (getMovies E movies req).1.status = 200 ∧
    (getMovies E movies req).1.body = .movies movies ∧
    (getMovies E movies req).1.headers = [] ∧
    (∀ v, (allowOrigin, v) ∉ (getMovies E movies req).1.headers) ∧
    headerValue (getMovies E movies req).1 allowOrigin = none ∧
    (getMovies E movies req).2 = movies := by
  rw [getMovies_unfiltered E movies req hg, ho, corsHeaders_foreign o hne hnot]
  exact ⟨rfl, rfl, rfl, by simp, rfl, rfl⟩

theorem foreign_origin_no_header_witness :
    ((⟨some "http://evil.test", none, "", fullBody⟩ : Request PartialMovie).origin =
        some "http://evil.test" ∧
      "http://evil.test" ≠ "" ∧ "http://evil.test" ∉ ACCEPTTED_ORIGINS ∧
      truthy (⟨some "http://evil.test", none, "", fullBody⟩ : Request PartialMovie).genre =
        false) ∧
    (getMovies sampleEnv sampleStore ⟨some "http://evil.test", none, "", fullBody⟩).1 =
      ⟨200, [], .movies [matrix, heat]⟩ ∧
    headerValue (getMovies sampleEnv sampleStore ⟨some "http://evil.test", none, "", fullBody⟩).1
      allowOrigin = none :=
  ⟨⟨rfl, by decide, by decide, rfl⟩, by decide,
    (foreign_origin_no_header sampleEnv sampleStore ⟨some "http://evil.test", none, "", fullBody⟩
      "http://evil.test" rfl (by decide) (by decide) rfl).2.2.2.2.1⟩

/-- C9 as stated fails: on a request without `Origin` header the gate's condition
holds (`!origin`), so each gated handler calls
`res.header('Access-Control-Allow-Origin', origin)` with the absent origin and
the response carries the header, with the value `String(undefined)`. -/
theorem absent_origin_sets_header :
    (getMovies sampleEnv sampleStore ⟨none, none, "", fullBody⟩).1.headers =
      [("Access-Control-Allow-Origin", "undefined")] ∧
    (deleteMovie sampleEnv sampleStore ⟨none, none, "a1", fullBody⟩).1.headers =
      [("Access-Control-Allow-Origin", "undefined")] ∧
    (optionsMovie sampleEnv sampleStore ⟨none, none, "a1", fullBody⟩).1.headers =
      [("Access-Control-Allow-Origin", "undefined"),
        ("Access-Control-Allow-Methods", "GET, POST, PATCH, DELETE")] ∧
    headerValue (getMovies sampleEnv sampleStore ⟨none, none, "", fullBody⟩).1 allowOrigin ≠
      none := by
  decide

/-- C9, amended: on every gated route (`GET /movies`, `DELETE /movies/:id`,
`OPTIONS /movies/:id`) a request without `Origin` header is counted as allowed
by the gate's condition and proceeds: its status, body and effect on the store
are those of the same request sent with any other origin. -/
theorem absent_origin_allowed (E : Env β ε) (movies : Store) (req : Request β)
    (h : req.origin = none) :
    gateOpen req.origin = true ∧
    ∀ o : Option String,
      outcome (getMovies E movies req) = outcome (getMovies E movies { req with origin := o }) ∧
      outcome (deleteMovie E movies req) =
        outcome (deleteMovie E movies { req with origin := o }) ∧
      outcome (optionsMovie E movies req) =
        outcome (optionsMovie E movies { req with origin := o }) := by
  refine ⟨by rw [h]; rfl, ?_⟩
  intro o
  obtain ⟨h1, h2, h3⟩ := getMovies_origin E movies req o
  obtain ⟨k1, k2, k3⟩ := deleteMovie_origin E movies req o
  refine ⟨?_, ?_, rfl⟩
  · simp only [outcome, h1, h2, h3]
  · simp only [outcome, k1, k2, k3]

theorem absent_origin_allowed_witness :
    (⟨none, none, "a1", fullBody⟩ : Request PartialMovie).origin = none ∧
    outcome (deleteMovie sampleEnv sampleStore ⟨none, none, "a1", fullBody⟩) =
      (200, .message "Movie deleted", [heat]) ∧
    outcome (deleteMovie sampleEnv sampleStore ⟨none, none, "a1", fullBody⟩) =
      outcome (deleteMovie sampleEnv sampleStore
        ⟨some "http://localhost:8080", none, "a1", fullBody⟩) :=
  ⟨rfl, by decide,
    ((absent_origin_allowed sampleEnv sampleStore ⟨none, none, "a1", fullBody⟩ rfl).2
      (some "http://localhost:8080")).2.1⟩

/-- C10: on every gated route (`GET /movies`, `DELETE /movies/:id`,
`OPTIONS /movies/:id`), for every request whose `Origin` is in the allow-list, the
response carries `Access-Control-Allow-Origin` with exactly that origin as its
value, and that value is never the wildcard. -/
theorem allowed_origin_echoed (E : Env β ε) (movies : Store) (req : Request β) (o : String)
    (ho : req.origin = some o) (hin : o ∈ ACCEPTTED_ORIGINS) :
    headerValue (getMovies E movies req).1 allowOrigin = some o ∧
    headerValue (deleteMovie E movies req).1 allowOrigin = some o ∧
    headerValue (optionsMovie E movies req).1 allowOrigin = some o ∧
    (∀ v, (allowOrigin, v) ∈ (getMovies E movies req).1.headers → v = o) ∧
    (∀ v, (allowOrigin, v) ∈ (deleteMovie E movies req).1.headers → v = o) ∧
    (∀ v, (allowOrigin, v) ∈ (optionsMovie E movies req).1.headers → v = o) ∧
    o ≠ "*" := by
  have hget : (getMovies E movies req).1.headers = [(allowOrigin, o)] := by
    rw [getMovies_headers, ho, corsHeaders_allowed o hin]
  have hdel : (deleteMovie E movies req).1.headers = [(allowOrigin, o)] := by
    rw [deleteMovie_headers, ho, corsHeaders_allowed o hin]
  have hopt : (optionsMovie E movies req).1.headers =
      [(allowOrigin, o), (allowMethods, "GET, POST, PATCH, DELETE")] := by
    simp only [optionsMovie, ho, preflightHeaders_allowed o hin]
  have hnames : (allowMethods == allowOrigin) = false := by decide
  have hne : allowOrigin ≠ allowMethods := by decide
  refine ⟨?_, ?_, ?_, ?_, ?_, ?_, ?_⟩
  · simp [headerValue, hget]
  · simp [headerValue, hdel]
  · simp [headerValue, hopt, List.find?_cons, hnames]
  · intro v hv
    rw [hget] at hv
    simpa using hv
  · intro v hv
    rw [hdel] at hv
    simpa using hv
  · intro v hv
    rw [hopt] at hv
    simp only [List.mem_cons, Prod.mk.injEq, List.mem_nil_iff, or_false] at hv
    rcases hv with hv | hv
    · exact hv.2
    · exact absurd hv.1 hne
  · intro hstar
    rw [hstar] at hin
    exact absurd hin (by decide)

theorem allowed_origin_echoed_witness :
    ((⟨some "http://localhost:8080", none, "a1", fullBody⟩ : Request PartialMovie).origin =
        some "http://localhost:8080" ∧
      "http://localhost:8080" ∈ ACCEPTTED_ORIGINS) ∧
    (optionsMovie sampleEnv sampleStore ⟨some "http://localhost:8080", none, "a1", fullBody⟩).1 =
      ⟨200, [("Access-Control-Allow-Origin", "http://localhost:8080"),
        ("Access-Control-Allow-Methods", "GET, POST, PATCH, DELETE")], .text "OK"⟩ ∧
    headerValue
      (getMovies sampleEnv sampleStore ⟨some "http://localhost:8080", none, "a1", fullBody⟩).1
      allowOrigin = some "http://localhost:8080" :=
  ⟨⟨rfl, by decide⟩, by decide,
    (allowed_origin_echoed sampleEnv sampleStore
      ⟨some "http://localhost:8080", none, "a1", fullBody⟩ "http://localhost:8080" rfl
      (by decide)).1⟩

/-- C11, the code at the failing input: a request from the allow-listed origin
http://localhost:8080 gets `Access-Control-Allow-Origin` from
`DELETE /movies/:id`, `OPTIONS /movies/:id` and `GET /movies`, but the successful
answers of `POST /movies` (201) and `PATCH /movies/:id` (200) carry no such
header, like the answer of `GET /movies/:id`. -/
theorem post_patch_omit_gate :
    "http://localhost:8080" ∈ ACCEPTTED_ORIGINS ∧
    (postMovie sampleEnv "c3" sampleStore
      ⟨some "http://localhost:8080", none, "", fullBody⟩).1.status = 201 ∧
    headerValue (postMovie sampleEnv "c3" sampleStore
      ⟨some "http://localhost:8080", none, "", fullBody⟩).1 allowOrigin = none ∧
    (patchMovie sampleEnv sampleStore
      ⟨some "http://localhost:8080", none, "b2", { year := some 1999 }⟩).1.status = 200 ∧
    headerValue (patchMovie sampleEnv sampleStore
      ⟨some "http://localhost:8080", none, "b2", { year := some 1999 }⟩).1 allowOrigin = none ∧
    headerValue (getMovieById sampleEnv sampleStore
      ⟨some "http://localhost:8080", none, "b2", fullBody⟩).1 allowOrigin = none ∧
    headerValue (deleteMovie sampleEnv sampleStore
      ⟨some "http://localhost:8080", none, "b2", fullBody⟩).1 allowOrigin =
      some "http://localhost:8080" ∧
    headerValue (optionsMovie sampleEnv sampleStore
      ⟨some "http://localhost:8080", none, "b2", fullBody⟩).1 allowOrigin =
      some "http://localhost:8080" ∧
    headerValue (getMovies sampleEnv sampleStore
      ⟨some "http://localhost:8080", none, "", fullBody⟩).1 allowOrigin =
      some "http://localhost:8080" := by
  decide

/-- C12: `PATCH /movies/:id` validates before it looks the record up: the answer
is 400 whenever (and only when) the body fails partial validation, whether or
not a record has the id; it is 404 exactly when the body passes and no record
has the id, and 200 exactly when the body passes and a record has the id. -/
theorem patch_validation_first (E : Env β ε) (movies : Store) (req : Request β) :
    (∀ msg, E.validatePartialMovie req.body = .error msg →
      (patchMovie E movies req).1.status = 400) ∧
    ((patchMovie E movies req).1.status = 400 ↔
      ∃ msg, E.validatePartialMovie req.body = .error msg) ∧
    ((patchMovie E movies req).1.status = 404 ↔
      (∃ data, E.validatePartialMovie req.body = .ok data) ∧ ∀ m ∈ movies, m.id ≠ req.id) ∧
    ((patchMovie E movies req).1.status = 200 ↔
      (∃ data, E.validatePartialMovie req.body = .ok data) ∧ ∃ m ∈ movies, m.id = req.id) := by
  cases hv : E.validatePartialMovie req.body with
  | error msg =>
    rw [patchMovie_error E movies req msg hv]
    refine ⟨fun _ _ => rfl, ⟨fun _ => ⟨msg, rfl⟩, fun _ => rfl⟩, ⟨fun h => ?_, fun h => ?_⟩,
      ⟨fun h => ?_, fun h => ?_⟩⟩
    · have h2 : (400 : Nat) = 404 := h
      exact absurd h2 (by decide)
    · obtain ⟨⟨data, hd⟩, _⟩ := h
      cases hd
    · have h2 : (400 : Nat) = 200 := h
      exact absurd h2 (by decide)
    · obtain ⟨⟨data, hd⟩, _⟩ := h
      cases hd
  | ok data =>
    cases hi : findIndex (fun movie => movie.id == req.id) movies with
    | none =>
      have hnone : ∀ m ∈ movies, m.id ≠ req.id := by
        intro m hm
        simpa using (findIndex_eq_none _ movies).mp hi m hm
      rw [patchMovie_missing E movies req data hv hi]
      refine ⟨fun msg h => (nomatch h), ⟨fun h => ?_, fun h => ?_⟩,
        ⟨fun _ => ⟨⟨data, rfl⟩, hnone⟩, fun _ => rfl⟩, ⟨fun h => ?_, fun h => ?_⟩⟩
      · have h2 : (404 : Nat) = 400 := h
        exact absurd h2 (by decide)
      · obtain ⟨msg, hmsg⟩ := h
        cases hmsg
      · have h2 : (404 : Nat) = 200 := h
        exact absurd h2 (by decide)
      · obtain ⟨_, m, hm, hid⟩ := h
        exact absurd hid (hnone m hm)
    | some i =>
      obtain ⟨l1, m, l2, hxs, _, _, hm, _, _, _⟩ := findIndex_id movies req.id i hi
      have hmem : ∃ x ∈ movies, x.id = req.id := ⟨m, by rw [hxs]; simp, hm⟩
      rw [patchMovie_ok E movies req data i hv hi]
      refine ⟨fun msg h => (nomatch h), ⟨fun h => ?_, fun h => ?_⟩, ⟨fun h => ?_, fun h => ?_⟩,
        ⟨fun _ => ⟨⟨data, rfl⟩, hmem⟩, fun _ => rfl⟩⟩
      · have h2 : (200 : Nat) = 400 := h
        exact absurd h2 (by decide)
      · obtain ⟨msg, hmsg⟩ := h
        cases hmsg
      · have h2 : (200 : Nat) = 404 := h
        exact absurd h2 (by decide)
      · obtain ⟨x, hx, hid⟩ := hmem
        exact absurd hid (h.2 x hx)

theorem patch_validation_first_witness :
    (strictEnv.validatePartialMovie ⟨some "", none, none, none, none, none, none⟩ =
        .error "[\"title: must not be empty\"]" ∧
      ∀ m ∈ sampleStore, m.id ≠ "zz") ∧
    (patchMovie strictEnv sampleStore
      ⟨none, none, "zz", ⟨some "", none, none, none, none, none, none⟩⟩).1.status = 400 ∧
    (patchMovie strictEnv sampleStore
      ⟨none, none, "b2", ⟨some "", none, none, none, none, none, none⟩⟩).1.status = 400 ∧
    (patchMovie strictEnv sampleStore
      ⟨none, none, "zz", ⟨some "Ronin", none, none, none, none, none, none⟩⟩).1.status = 404 ∧
    (patchMovie strictEnv sampleStore
      ⟨none, none, "b2", ⟨some "Ronin", none, none, none, none, none, none⟩⟩).1.status = 200 :=
  ⟨⟨rfl, by decide⟩,
    (patch_validation_first strictEnv sampleStore
      ⟨none, none, "zz", ⟨some "", none, none, none, none, none, none⟩⟩).1 _ rfl,
    by decide,
    (patch_validation_first strictEnv sampleStore
      ⟨none, none, "zz", ⟨some "Ronin", none, none, none, none, none, none⟩⟩).2.2.1.mpr
      ⟨⟨_, rfl⟩, by decide⟩,
    by decide⟩

/-- C13: pairwise distinct ids are an invariant of the store: when the ids are
pairwise distinct before a request they are so after it, for `POST /movies`
(given that the generated id is not yet in the store), `PATCH /movies/:id`,
`DELETE /movies/:id`, `OPTIONS /movies/:id` and the two read routes. -/
theorem ids_stay_distinct (E : Env β ε) (uuid : String) (movies : Store) (req : Request β)
    (hnodup : (movies.map Movie.id).Nodup) :
    ((∀ m ∈ movies, m.id ≠ uuid) → ((postMovie E uuid movies req).2.map Movie.id).Nodup) ∧
    ((patchMovie E movies req).2.map Movie.id).Nodup ∧
    ((deleteMovie E movies req).2.map Movie.id).Nodup ∧
    ((getMovies E movies req).2.map Movie.id).Nodup ∧
    ((getMovieById E movies req).2.map Movie.id).Nodup ∧
    ((optionsMovie E movies req).2.map Movie.id).Nodup := by
  refine ⟨?_, ?_, ?_, ?_, ?_, hnodup⟩
  · intro hfresh
    cases hv : E.validateMovie req.body with
    | error msg => rw [postMovie_error E uuid movies req msg hv]; exact hnodup
    | ok data =>
      rw [postMovie_ok E uuid movies req data hv]
      show ((movies ++ [newMovie uuid data]).map Movie.id).Nodup
      rw [List.map_append, List.nodup_append]
      refine ⟨hnodup, by simp, ?_⟩
      intro a ha hb
      obtain ⟨m, hm, rfl⟩ := List.mem_map.mp ha
      simp only [List.map_cons, List.map_nil, List.mem_singleton] at hb
      exact hfresh m hm hb
  · cases hv : E.validatePartialMovie req.body with
    | error msg => rw [patchMovie_error E movies req msg hv]; exact hnodup
    | ok data =>
      cases hi : findIndex (fun movie => movie.id == req.id) movies with
      | none => rw [patchMovie_missing E movies req data hv hi]; exact hnodup
      | some i =>
        obtain ⟨l1, m, l2, hxs, _, hget, _, _, _, hset⟩ := findIndex_id movies req.id i hi
        rw [patchMovie_ok E movies req data i hv hi]
        show ((movies.set i.val (mergeMovie (movies.get i) data)).map Movie.id).Nodup
        rw [hset, hget]
        have hids : (l1 ++ mergeMovie m data :: l2).map Movie.id = movies.map Movie.id := by
          rw [hxs]
          simp [mergeMovie]
        rw [hids]
        exact hnodup
  · cases hi : findIndex (fun movie => movie.id == req.id) movies with
    | none => rw [deleteMovie_missing E movies req hi]; exact hnodup
    | some i =>
      rw [deleteMovie_ok E movies req i hi]
      show ((movies.eraseIdx i.val).map Movie.id).Nodup
      exact hnodup.sublist ((List.eraseIdx_sublist movies i.val).map Movie.id)
  · rw [getMovies_store]; exact hnodup
  · unfold getMovieById
    cases movies.find? (fun movie => movie.id == req.id) <;> exact hnodup

theorem ids_stay_distinct_witness :
    ((sampleStore.map Movie.id).Nodup ∧ ∀ m ∈ sampleStore, m.id ≠ "c3") ∧
    (((postMovie sampleEnv "c3" sampleStore ⟨none, none, "b2", fullBody⟩).2.map Movie.id) =
      ["a1", "b2", "c3"]) ∧
    ((postMovie sampleEnv "c3" sampleStore ⟨none, none, "b2", fullBody⟩).2.map
      Movie.id).Nodup ∧
    ((deleteMovie sampleEnv sampleStore ⟨none, none, "b2", fullBody⟩).2.map Movie.id).Nodup :=
  ⟨⟨by decide, by decide⟩, by decide,
    (ids_stay_distinct sampleEnv "c3" sampleStore ⟨none, none, "b2", fullBody⟩ (by decide)).1
      (by decide),
    (ids_stay_distinct sampleEnv "c3" sampleStore ⟨none, none, "b2", fullBody⟩
      (by decide)).2.2.1⟩

/-- C14: the `Origin` header never influences the outcome of a request: on every
route, two requests that differ only in their origin (absent or present,
allow-listed or not) produce the same status code, the same body and the same
resulting store; the only headers a handler sets are the two
`Access-Control-*` headers, so the origin can change nothing else. -/
theorem origin_never_changes_outcome (E : Env β ε) (uuid : String) (movies : Store)
    (req : Request β) (o1 o2 : Option String) :
    outcome (getMovies E movies { req with origin := o1 }) =
      outcome (getMovies E movies { req with origin := o2 }) ∧
    outcome (getMovieById E movies { req with origin := o1 }) =
      outcome (getMovieById E movies { req with origin := o2 }) ∧
    outcome (postMovie E uuid movies { req with origin := o1 }) =
      outcome (postMovie E uuid movies { req with origin := o2 }) ∧
    outcome (patchMovie E movies { req with origin := o1 }) =
      outcome (patchMovie E movies { req with origin := o2 }) ∧
    outcome (deleteMovie E movies { req with origin := o1 }) =
      outcome (deleteMovie E movies { req with origin := o2 }) ∧
    outcome (optionsMovie E movies { req with origin := o1 }) =
      outcome (optionsMovie E movies { req with origin := o2 }) ∧
    (∀ kv,
      (kv ∈ (getMovies E movies req).1.headers ∨ kv ∈ (getMovieById E movies req).1.headers ∨
        kv ∈ (postMovie E uuid movies req).1.headers ∨
        kv ∈ (patchMovie E movies req).1.headers ∨
        kv ∈ (deleteMovie E movies req).1.headers ∨
        kv ∈ (optionsMovie E movies req).1.headers) →
      kv.1 = allowOrigin ∨ kv.1 = allowMethods) := by
  refine ⟨?_, rfl, rfl, rfl, ?_, rfl, ?_⟩
  · obtain ⟨h1, h2, h3⟩ := getMovies_origin E movies req o1
    obtain ⟨k1, k2, k3⟩ := getMovies_origin E movies req o2
    simp only [outcome, h1, h2, h3, k1, k2, k3]
  · obtain ⟨h1, h2, h3⟩ := deleteMovie_origin E movies req o1
    obtain ⟨k1, k2, k3⟩ := deleteMovie_origin E movies req o2
    simp only [outcome, h1, h2, h3, k1, k2, k3]
  · intro kv hkv
    obtain ⟨hpost, hpatch, hget⟩ := ungated_headers E uuid movies req
    rw [getMovies_headers, deleteMovie_headers, hpost, hpatch, hget] at hkv
    have hcors : ∀ o : Option String, kv ∈ corsHeaders o → kv.1 = allowOrigin := by
      intro o h
      unfold corsHeaders at h
      by_cases hg : gateOpen o = true
      · simp only [hg, if_true, List.mem_singleton] at h
        rw [h]
      · simp [hg] at h
    have hpre : kv ∈ preflightHeaders req.origin → kv.1 = allowOrigin ∨ kv.1 = allowMethods := by
      intro h
      unfold preflightHeaders at h
      by_cases hg : gateOpen req.origin = true
      · simp only [hg, if_true, List.mem_cons, List.mem_nil_iff, or_false] at h
        rcases h with h | h
        · left; rw [h]
        · right; rw [h]
      · simp [hg] at h
    rcases hkv with h | h | h | h | h | h
    · exact Or.inl (hcors _ h)
    · simp at h
    · simp at h
    · simp at h
    · exact Or.inl (hcors _ h)
    · exact hpre h

theorem origin_never_changes_outcome_witness :
    outcome (deleteMovie sampleEnv sampleStore ⟨some "http://evil.test", none, "b2", fullBody⟩) =
      (200, .message "Movie deleted", [matrix]) ∧
    outcome (deleteMovie sampleEnv sampleStore ⟨some "http://evil.test", none, "b2", fullBody⟩) =
      outcome (deleteMovie sampleEnv sampleStore
        ⟨some "http://localhost:8080", none, "b2", fullBody⟩) ∧
    (deleteMovie sampleEnv sampleStore ⟨some "http://evil.test", none, "b2", fullBody⟩).1.headers ≠
      (deleteMovie sampleEnv sampleStore
        ⟨some "http://localhost:8080", none, "b2", fullBody⟩).1.headers :=
  ⟨by decide,
    (origin_never_changes_outcome sampleEnv "c3" sampleStore ⟨none, none, "b2", fullBody⟩
      (some "http://evil.test") (some "http://localhost:8080")).2.2.2.2.1,
    by decide⟩

/-- The preflight gate for a non-empty origin outside the allow-list sets nothing. -/
theorem preflightHeaders_foreign (o : String) (hne : o ≠ "") (h : o ∉ ACCEPTTED_ORIGINS) :
    preflightHeaders (some o) = [] := by
  simp [preflightHeaders, gateOpen, includesOrigin, h, truthy, hne]

/-- C15 as stated fails for an `Origin` header that is present and empty: it is
not in the allow-list, but it is falsy, so `OPTIONS /movies/:id` sets both
headers. -/
theorem preflight_empty_origin :
    (⟨some "", none, "a1", fullBody⟩ : Request PartialMovie).origin ≠ none ∧
    "" ∉ ACCEPTTED_ORIGINS ∧
    (optionsMovie sampleEnv sampleStore ⟨some "", none, "a1", fullBody⟩).1.headers =
      [("Access-Control-Allow-Origin", ""),
        ("Access-Control-Allow-Methods", "GET, POST, PATCH, DELETE")] ∧
    headerValue (optionsMovie sampleEnv sampleStore ⟨some "", none, "a1", fullBody⟩).1
      allowOrigin ≠ none ∧
    headerValue (optionsMovie sampleEnv sampleStore ⟨some "", none, "a1", fullBody⟩).1
      allowMethods ≠ none := by
  decide

/-- C15, amended: `OPTIONS /movies/:id` answers 200 for every request and every
id and leaves the store unchanged; for an origin of the allow-list the response
carries `Access-Control-Allow-Origin` with that origin and
`Access-Control-Allow-Methods` with 'GET, POST, PATCH, DELETE'; for an origin that
is present, not empty and not in the allow-list it carries neither header. -/
theorem preflight_answer (E : Env β ε) (movies : Store) (req : Request β) :
    (optionsMovie E movies req).1.status = 200 ∧
    (optionsMovie E movies req).2 = movies ∧
    (∀ o, req.origin = some o → o ∈ ACCEPTTED_ORIGINS →
      headerValue (optionsMovie E movies req).1 allowOrigin = some o ∧
      headerValue (optionsMovie E movies req).1 allowMethods =
        some "GET, POST, PATCH, DELETE") ∧
    (∀ o, req.origin = some o → o ≠ "" → o ∉ ACCEPTTED_ORIGINS →
      (optionsMovie E movies req).1.headers = [] ∧
      headerValue (optionsMovie E movies req).1 allowOrigin = none ∧
      headerValue (optionsMovie E movies req).1 allowMethods = none) := by
  refine ⟨rfl, rfl, ?_, ?_⟩
  · intro o ho hin
    have hopt : (optionsMovie E movies req).1.headers =
        [(allowOrigin, o), (allowMethods, "GET, POST, PATCH, DELETE")] := by
      simp only [optionsMovie, ho, preflightHeaders_allowed o hin]
    have hnames : (allowMethods == allowOrigin) = false := by decide
    constructor
    · simp [headerValue, hopt, List.find?_cons, hnames]
    · simp [headerValue, hopt, List.find?_cons]
  · intro o ho hne hnot
    have hopt : (optionsMovie E movies req).1.headers = [] := by
      simp only [optionsMovie, ho, preflightHeaders_foreign o hne hnot]
    exact ⟨hopt, by simp [headerValue, hopt], by simp [headerValue, hopt]⟩

theorem preflight_answer_witness :
    ((⟨some "https://localhost:3000", none, "zz", fullBody⟩ : Request PartialMovie).origin =
        some "https://localhost:3000" ∧
      "https://localhost:3000" ∈ ACCEPTTED_ORIGINS ∧
      "http://evil.test" ≠ "" ∧ "http://evil.test" ∉ ACCEPTTED_ORIGINS) ∧
    headerValue
      (optionsMovie sampleEnv sampleStore ⟨some "https://localhost:3000", none, "zz", fullBody⟩).1
      allowMethods = some "GET, POST, PATCH, DELETE" ∧
    (optionsMovie sampleEnv sampleStore ⟨some "http://evil.test", none, "zz", fullBody⟩).1 =
      ⟨200, [], .text "OK"⟩ ∧
    (optionsMovie sampleEnv sampleStore ⟨some "http://evil.test", none, "zz", fullBody⟩).1.headers =
      [] :=
  ⟨⟨rfl, by decide, by decide, by decide⟩,
    ((preflight_answer sampleEnv sampleStore
      ⟨some "https://localhost:3000", none, "zz", fullBody⟩).2.2.1 _ rfl (by decide)).2,
    by decide,
    ((preflight_answer sampleEnv sampleStore
      ⟨some "http://evil.test", none, "zz", fullBody⟩).2.2.2 _ rfl (by decide) (by decide)).1⟩

/-- C16: reads observe the preceding writes. In a store with pairwise distinct
ids, for a stored record `m` and requests for its id: `GET /movies/:id` answers
200 with `m`; after a successful `PATCH /movies/:id` it answers 200 with exactly
the merged record that the `PATCH` returned, whose id is unchanged; after a
successful `DELETE /movies/:id` (200, 'Movie deleted'), also one that follows
the `PATCH`, it answers 404. -/
theorem reads_observe_writes (E : Env β ε) (movies : Store) (req : Request β) (m : Movie)
    (hnodup : (movies.map Movie.id).Nodup) (hmem : m ∈ movies) (hid : m.id = req.id) :
    ((getMovieById E movies req).1.status = 200 ∧
      (getMovieById E movies req).1.body = .movie m) ∧
    (∀ data, E.validatePartialMovie req.body = .ok data →
      (patchMovie E movies req).1.status = 200 ∧
      (patchMovie E movies req).1.body = .movie (mergeMovie m data) ∧
      (mergeMovie m data).id = m.id ∧
      (getMovieById E (patchMovie E movies req).2 req).1.status = 200 ∧
      (getMovieById E (patchMovie E movies req).2 req).1.body =
        (patchMovie E movies req).1.body ∧
      (deleteMovie E (patchMovie E movies req).2 req).1.status = 200 ∧
      (deleteMovie E (patchMovie E movies req).2 req).1.body = .message "Movie deleted" ∧
      (getMovieById E (deleteMovie E (patchMovie E movies req).2 req).2 req).1.status = 404) ∧
    ((deleteMovie E movies req).1.status = 200 ∧
      (deleteMovie E movies req).1.body = .message "Movie deleted" ∧
      (getMovieById E (deleteMovie E movies req).2 req).1.status = 404 ∧
      (getMovieById E (deleteMovie E movies req).2 req).1.body =
        .message "Movie not found") := by
  obtain ⟨l1, n, l2, hxs, hn, hl1⟩ := exists_first movies req.id ⟨m, hmem, hid⟩
  subst hxs
  have hl2 : ∀ x ∈ l2, x.id ≠ req.id := by
    intro x hx
    rw [← hn]
    exact nodup_after l1 n l2 hnodup x hx
  have hmn : m = n := by
    rcases List.mem_append.mp hmem with h | h
    · exact absurd hid (hl1 m h)
    · rcases List.mem_cons.mp h with h | h
      · exact h
      · exact absurd hid (hl2 m h)
  subst hmn
  have hrest : ∀ x ∈ l1 ++ l2, x.id ≠ req.id := by
    intro x hx
    rcases List.mem_append.mp hx with h | h
    · exact hl1 x h
    · exact hl2 x h
  refine ⟨?_, ?_, ?_⟩
  · rw [getMovieById_split E l1 m l2 req hid hl1]
    exact ⟨rfl, rfl⟩
  · intro data hv
    have hmerged : (mergeMovie m data).id = req.id := hid
    have hpatch := patchMovie_split E l1 m l2 req data hv hid hl1
    have hstore : (patchMovie E (l1 ++ m :: l2) req).2 = l1 ++ mergeMovie m data :: l2 := by
      rw [hpatch]
    have hdel := deleteMovie_split E l1 (mergeMovie m data) l2 req hmerged hl1
    have hdelstore : (deleteMovie E (l1 ++ mergeMovie m data :: l2) req).2 = l1 ++ l2 := by
      rw [hdel]
    rw [hstore, hdelstore, getMovieById_missing E (l1 ++ l2) req hrest, hpatch, hdel,
      getMovieById_split E l1 (mergeMovie m data) l2 req hmerged hl1]
    exact ⟨rfl, rfl, rfl, rfl, rfl, rfl, rfl, rfl⟩
  · have hdel := deleteMovie_split E l1 m l2 req hid hl1
    have hdelstore : (deleteMovie E (l1 ++ m :: l2) req).2 = l1 ++ l2 := by
      rw [hdel]
    rw [hdelstore, getMovieById_missing E (l1 ++ l2) req hrest, hdel]
    exact ⟨rfl, rfl, rfl, rfl⟩

theorem reads_observe_writes_witness :
    (([seedMovie].map Movie.id).Nodup ∧ seedMovie ∈ [seedMovie] ∧ seedMovie.id = "a1" ∧
      sampleEnv.validatePartialMovie ⟨some "Y", none, none, none, none, none, none⟩ =
        .ok ⟨some "Y", none, none, none, none, none, none⟩) ∧
    (getMovieById sampleEnv [seedMovie]
      ⟨none, none, "a1", ⟨some "Y", none, none, none, none, none, none⟩⟩).1 =
      ⟨200, [], .movie ⟨"a1", some "X", some 2000, none, none, none, none, ["Drama"]⟩⟩ ∧
    patchMovie sampleEnv [seedMovie]
      ⟨none, none, "a1", ⟨some "Y", none, none, none, none, none, none⟩⟩ =
      (⟨200, [], .movie ⟨"a1", some "Y", some 2000, none, none, none, none, ["Drama"]⟩⟩,
        [⟨"a1", some "Y", some 2000, none, none, none, none, ["Drama"]⟩]) ∧
    deleteMovie sampleEnv [⟨"a1", some "Y", some 2000, none, none, none, none, ["Drama"]⟩]
      ⟨none, none, "a1", ⟨some "Y", none, none, none, none, none, none⟩⟩ =
      (⟨200, [("Access-Control-Allow-Origin", "undefined")], .message "Movie deleted"⟩, []) ∧
    (getMovieById sampleEnv []
      ⟨none, none, "a1", ⟨some "Y", none, none, none, none, none, none⟩⟩).1 =
      ⟨404, [], .message "Movie not found"⟩ ∧
    (getMovieById sampleEnv
      (deleteMovie sampleEnv
        (patchMovie sampleEnv [seedMovie]
          ⟨none, none, "a1", ⟨some "Y", none, none, none, none, none, none⟩⟩).2
        ⟨none, none, "a1", ⟨some "Y", none, none, none, none, none, none⟩⟩).2
      ⟨none, none, "a1", ⟨some "Y", none, none, none, none, none, none⟩⟩).1.status = 404 :=
  ⟨⟨by decide, by decide, rfl, rfl⟩, by decide, by decide, by decide, by decide,
    ((reads_observe_writes sampleEnv [seedMovie]
      ⟨none, none, "a1", ⟨some "Y", none, none, none, none, none, none⟩⟩ seedMovie
      (by decide) (by decide) rfl).2.1 _ rfl).2.2.2.2.2.2.2⟩

/-- C17: a successful `DELETE /movies/:id` removes exactly one record, the first
one in store order whose `id` is the requested id: the store splits as
`l1 ++ m :: l2` with `m` that first record, and the resulting store is
`l1 ++ l2`, every other record kept in its order, also when later records share
the id. -/
theorem delete_removes_first (E : Env β ε) (movies : Store) (req : Request β)
    (hok : (deleteMovie E movies req).1.status = 200) :
    ∃ l1 m l2, movies = l1 ++ m :: l2 ∧ m.id = req.id ∧ (∀ x ∈ l1, x.id ≠ req.id) ∧
      (deleteMovie E movies req).2 = l1 ++ l2 ∧
      (deleteMovie E movies req).2 = movies.eraseIdx l1.length ∧
      (deleteMovie E movies req).2.length + 1 = movies.length := by
  cases hi : findIndex (fun movie => movie.id == req.id) movies with
  | none =>
    rw [deleteMovie_missing E movies req hi] at hok
    have h2 : (404 : Nat) = 200 := hok
    exact absurd h2 (by decide)
  | some i =>
    obtain ⟨l1, m, l2, hxs, hlen, _, hm, hl1, herase, _⟩ := findIndex_id movies req.id i hi
    rw [deleteMovie_ok E movies req i hi]
    refine ⟨l1, m, l2, hxs, hm, hl1, herase, by rw [hlen], ?_⟩
    show (movies.eraseIdx i.val).length + 1 = movies.length
    rw [herase]
    conv_rhs => rw [hxs]
    simp
    omega

theorem delete_removes_first_witness :
    (deleteMovie sampleEnv twinStore ⟨none, none, "b2", fullBody⟩).1.status = 200 ∧
    (deleteMovie sampleEnv twinStore ⟨none, none, "b2", fullBody⟩).2 = [matrix, heatCopy] ∧
    ∃ l1 m l2, twinStore = l1 ++ m :: l2 ∧ m.id = "b2" ∧
      (deleteMovie sampleEnv twinStore ⟨none, none, "b2", fullBody⟩).2 = l1 ++ l2 :=
  ⟨by decide, by decide,
    match delete_removes_first sampleEnv twinStore ⟨none, none, "b2", fullBody⟩ (by decide) with
    | ⟨l1, m, l2, h⟩ => ⟨l1, m, l2, h.1, h.2.1, h.2.2.2.1⟩⟩

/-- C18: the partial update is idempotent and has an identity: for every store,
every id of an existing record and every validated partial value `d`, a second
`PATCH /movies/:id` with `d` returns the same record and leaves the same store
as the first one; with the validated value that has no field, `PATCH` returns
the existing record and leaves the store unchanged. -/
theorem patch_idempotent (E : Env β ε) (movies : Store) (req : Request β) (d : PartialMovie)
    (hv : E.validatePartialMovie req.body = .ok d) (hmem : ∃ m ∈ movies, m.id = req.id) :
    patchMovie E (patchMovie E movies req).2 req = patchMovie E movies req ∧
    (d = {} →
      (patchMovie E movies req).2 = movies ∧
      (patchMovie E movies req).1.status = 200 ∧
      ∃ m ∈ movies, m.id = req.id ∧ (patchMovie E movies req).1.body = .movie m) := by
  obtain ⟨l1, m, l2, hxs, hm, hl1⟩ := exists_first movies req.id hmem
  subst hxs
  have hmerged : (mergeMovie m d).id = req.id := hm
  rw [patchMovie_split E l1 m l2 req d hv hm hl1]
  constructor
  · show patchMovie E (l1 ++ mergeMovie m d :: l2) req = _
    rw [patchMovie_split E l1 (mergeMovie m d) l2 req d hv hmerged hl1, mergeMovie_idem]
  · intro hd
    subst hd
    rw [mergeMovie_empty]
    exact ⟨rfl, rfl, m, by simp, hm, rfl⟩

theorem patch_idempotent_witness :
    (sampleEnv.validatePartialMovie ⟨some "Ronin", none, none, none, some 7, none, none⟩ =
        .ok ⟨some "Ronin", none, none, none, some 7, none, none⟩ ∧
      ∃ m ∈ sampleStore, m.id = "b2") ∧
    patchMovie sampleEnv
        (patchMovie sampleEnv sampleStore
          ⟨none, none, "b2", ⟨some "Ronin", none, none, none, some 7, none, none⟩⟩).2
        ⟨none, none, "b2", ⟨some "Ronin", none, none, none, some 7, none, none⟩⟩ =
      patchMovie sampleEnv sampleStore
        ⟨none, none, "b2", ⟨some "Ronin", none, none, none, some 7, none, none⟩⟩ ∧
    (patchMovie sampleEnv sampleStore
      ⟨none, none, "b2", ⟨some "Ronin", none, none, none, some 7, none, none⟩⟩).2 =
      [matrix, ⟨"b2", some "Ronin", some 1995, some "Michael Mann", some 170, some 7,
        some "https://img.test/heat.jpg", ["Crime", "Drama"]⟩] ∧
    (patchMovie sampleEnv sampleStore ⟨none, none, "b2", {}⟩).2 = sampleStore :=
  ⟨⟨rfl, heat, by decide, rfl⟩,
    (patch_idempotent sampleEnv sampleStore
      ⟨none, none, "b2", ⟨some "Ronin", none, none, none, some 7, none, none⟩⟩ _ rfl
      ⟨heat, by decide, rfl⟩).1,
    by decide,
    ((patch_idempotent sampleEnv sampleStore ⟨none, none, "b2", {}⟩ _ rfl
      ⟨heat, by decide, rfl⟩).2 rfl).1⟩

end Claims

end MoviesApi
